import Mathlib

/-!
# Verification of the matter-js `Engine` tick pipeline

Shallow embedding of `src/core/Engine.js` (the module `Engine` with
`Engine.create`, `Engine.update`, and the frame callback installed by
`Engine.run`).  The engine's per-tick control flow is embedded as a trace
of the calls it performs, in the order the source performs them; numeric
quantities (timestamps, deltas) are embedded as rationals.  Collaborator
modules that `Engine.js` merely calls (`Grid`, `Detector`, `Manager`,
`Resolver`, `Sleeping`, `Metrics`, `Body`, `Constraint`, `Events`) are not
part of the source under verification; their invocations appear as trace
events, and the effect of `Manager.updatePairs` on the engine's
`pairs.collisionStart/Active/End` lists is taken as a parameter.
-/

/-- One call performed by the engine during a frame.  The constructors in the
`metricsReset` … `resetForcesAll` range are the calls made inside
`Engine.update`; the others are the calls made by the frame callback of
`Engine.run` around `Engine.update`. -/
inductive Ev where
  | requestFrame : Ev
  | beforeTickEvt : Ev
  | tickBeforeUpdateEvt : Ev
  | updateCall (delta correction : ℚ) : Ev
  | metricsReset : Ev
  | sleepingUpdate : Ev
  | applyGravityAll : Ev
  | mouseConstraintUpdate : Ev
  | bodyUpdateAll : Ev
  | constraintUpdateAll : Ev
  | gridUpdate : Ev
  | detectorRun : Ev
  | updatePairs (timestamp : ℚ) : Ev
  | removeOldPairs (timestamp : ℚ) : Ev
  | sleepingAfterCollisions : Ev
  | preSolveVelocity : Ev
  | solveVelocity : Ev
  | solvePosition : Ev
  | postSolvePosition : Ev
  | metricsUpdate : Ev
  | resetForcesAll : Ev
  | collisionStartEvt : Ev
  | collisionActiveEvt : Ev
  | collisionEndEvt : Ev
  | mouseEvts : Ev
  | afterUpdateEvt : Ev
  | renderWorld : Ev
  | afterTickEvt : Ev
  deriving DecidableEq

/-- The engine's `timing` object (`Engine.create` defaults, lines 48–55). -/
structure Timing where
  fps : ℚ
  timestamp : ℚ
  delta : ℚ
  correction : ℚ
  deltaMin : ℚ
  deltaMax : ℚ
  deriving DecidableEq

/-- The engine's `pairs` object: only the three per-tick classification lists
are relevant here; list elements are pair ids. -/
structure Pairs where
  collisionStart : List ℕ
  collisionActive : List ℕ
  collisionEnd : List ℕ
  deriving DecidableEq

/-- The engine state fields of `Engine.js` that its own control flow reads. -/
structure Engine where
  enabled : Bool
  positionIterations : ℕ
  velocityIterations : ℕ
  constraintIterations : ℕ
  enableSleeping : Bool
  timeScale : ℚ
  timing : Timing
  pairs : Pairs
  /-- whether `engine.broadphase[engine.broadphase.current]` has a
  `controller` (true for the default `grid` entry, false for `bruteForce`). -/
  broadphaseHasController : Bool
  /-- `engine.render.options.enabled`, read by the frame callback. -/
  renderEnabled : Bool
  deriving DecidableEq

/-- Options accepted by `Engine.create`; a `none` field means the caller did
not override the corresponding default (`Common.extend(defaults, options)`). -/
structure EngineOptions where
  enabled : Option Bool := none
  positionIterations : Option ℕ := none
  velocityIterations : Option ℕ := none
  constraintIterations : Option ℕ := none
  enableSleeping : Option Bool := none
  timeScale : Option ℚ := none
  timing : Option Timing := none
  pairs : Option Pairs := none
  broadphaseHasController : Option Bool := none
  renderEnabled : Option Bool := none
  deriving DecidableEq

/-- `_fps = 60` (Engine.js line 16). -/
def engineFps : ℚ := 60

/-- `_delta = 1000 / _fps` (Engine.js line 18). -/
def engineDelta : ℚ := 1000 / engineFps

/-- `_deltaSampleSize = 8` (Engine.js line 17). -/
def deltaSampleSize : ℕ := 8

/-- The `timing` defaults of `Engine.create` (lines 48–55):
`deltaMin = 1000/fps`, `deltaMax = 1000/(fps * 0.5)`. -/
def defaultTiming : Timing :=
  { fps := engineFps
    timestamp := 0
    delta := engineDelta
    correction := 1
    deltaMin := 1000 / engineFps
    deltaMax := 1000 / (engineFps * (1/2)) }

/-- The `pairs` default of `Engine.create` (lines 37–43): empty lists. -/
def emptyPairs : Pairs :=
  { collisionStart := [], collisionActive := [], collisionEnd := [] }

/-- Embedding of `Engine.create(element, options)` (lines 31–88) on the
standard path where `element` is an HTML element: `Common.extend` merges
`options` over the defaults, then the default grid broadphase (which has a
`controller`) and a default renderer are installed unless overridden. -/
def Engine.create (opts : EngineOptions) : Engine :=
  { enabled := opts.enabled.getD true
    positionIterations := opts.positionIterations.getD 6
    velocityIterations := opts.velocityIterations.getD 4
    constraintIterations := opts.constraintIterations.getD 1
    enableSleeping := opts.enableSleeping.getD false
    timeScale := opts.timeScale.getD 1
    timing := opts.timing.getD defaultTiming
    pairs := opts.pairs.getD emptyPairs
    broadphaseHasController := opts.broadphaseHasController.getD true
    renderEnabled := opts.renderEnabled.getD true }

/-- A list of events emitted only when `c` holds (a guarded call such as
`if (engine.enableSleeping) Sleeping.update(...)`). -/
def optEvs (c : Bool) (l : List Ev) : List Ev := if c then l else []

/-- Embedding of `Engine.update(engine, delta, correction)` (lines 236–297)
as the trace of collaborator calls it performs, in source order:
`Metrics.reset`; `Sleeping.update` when sleeping is enabled;
`Body.applyGravityAll`; `MouseConstraint.update`; `Body.updateAll` (the
Verlet integrator); `Constraint.updateAll`, `constraintIterations` times;
the broad-phase `controller.update` when the current broadphase has a
controller; the narrow-phase `broadphase.detector`; `Manager.updatePairs`
and `Manager.removeOldPairs`, both with `engine.timing.timestamp`;
`Sleeping.afterCollisions` when sleeping is enabled;
`Resolver.preSolveVelocity`; `Resolver.solveVelocity`,
`velocityIterations` times; `Resolver.solvePosition`, `positionIterations`
times; `Resolver.postSolvePosition`; `Metrics.update`;
`Body.resetForcesAll`. -/
def updateTrace (e : Engine) : List Ev :=
  [Ev.metricsReset]
  ++ (optEvs e.enableSleeping [Ev.sleepingUpdate]
  ++ ([Ev.applyGravityAll, Ev.mouseConstraintUpdate, Ev.bodyUpdateAll]
  ++ (List.replicate e.constraintIterations Ev.constraintUpdateAll
  ++ (optEvs e.broadphaseHasController [Ev.gridUpdate]
  ++ ([Ev.detectorRun, Ev.updatePairs e.timing.timestamp,
       Ev.removeOldPairs e.timing.timestamp]
  ++ (optEvs e.enableSleeping [Ev.sleepingAfterCollisions]
  ++ ([Ev.preSolveVelocity]
  ++ (List.replicate e.velocityIterations Ev.solveVelocity
  ++ (List.replicate e.positionIterations Ev.solvePosition
  ++ [Ev.postSolvePosition, Ev.metricsUpdate, Ev.resetForcesAll])))))))))

/-- `delta = (timestamp - timing.timestamp) || _delta` (line 128): the raw
frame delta, defaulting to `_delta` when the difference is zero. -/
def rawFrameDelta (timing : Timing) (timestamp : ℚ) : ℚ :=
  if timestamp - timing.timestamp = 0 then engineDelta
  else timestamp - timing.timestamp

/-- `deltaHistory.slice(-_deltaSampleSize)`: the last up-to-`n` elements. -/
def lastN (n : ℕ) (l : List ℚ) : List ℚ := l.drop (l.length - n)

/-- `Math.min` applied to a list (line 133); `0` on the empty list, which
never arises since the current delta was just pushed. -/
def listMin : List ℚ → ℚ
  | [] => 0
  | [x] => x
  | x :: y :: t => min x (listMin (y :: t))

/-- Lines 136–137: clamp the filtered delta to
`[timing.deltaMin, timing.deltaMax]`, lower bound applied first. -/
def clampDelta (timing : Timing) (d : ℚ) : ℚ :=
  if (if d < timing.deltaMin then timing.deltaMin else d) > timing.deltaMax
  then timing.deltaMax
  else (if d < timing.deltaMin then timing.deltaMin else d)

/-- The trace of the enabled branch of the `Engine.run` frame callback
(lines 103–225): request next frame, `beforeTick`, timing work (traceless),
`tick beforeUpdate`, the `Engine.update` call with its computed
`delta`/`correction` followed inline by the update's own trace, the three
conditional collision events, mouse events, `afterUpdate beforeRender`,
conditional render, `afterTick afterRender`.  `pairsAfter` is the state of
`engine.pairs` after `Engine.update` (mutated by `Manager.updatePairs`,
which lives outside this source file). -/
def runTickTrace (e' : Engine) (pairsAfter : Pairs) (delta correction : ℚ) :
    List Ev :=
  [Ev.requestFrame, Ev.beforeTickEvt, Ev.tickBeforeUpdateEvt,
   Ev.updateCall delta correction]
  ++ (updateTrace e'
  ++ (optEvs (pairsAfter.collisionStart.length != 0) [Ev.collisionStartEvt]
  ++ (optEvs (pairsAfter.collisionActive.length != 0) [Ev.collisionActiveEvt]
  ++ (optEvs (pairsAfter.collisionEnd.length != 0) [Ev.collisionEndEvt]
  ++ ([Ev.mouseEvts, Ev.afterUpdateEvt]
  ++ (optEvs e'.renderEnabled [Ev.renderWorld]
  ++ [Ev.afterTickEvt]))))))

/-- The closure state of `Engine.run` (line 96–101) together with the engine. -/
structure RunState where
  engine : Engine
  deltaHistory : List ℚ
  frameCounter : ℚ
  counterTimestamp : ℚ
  deriving DecidableEq

/-- The delta history after this frame's push-and-slice (lines 131–132):
the raw delta is appended, then the last `_deltaSampleSize` entries kept. -/
def frameHistory (s : RunState) (ts : ℚ) : List ℚ :=
  lastN deltaSampleSize (s.deltaHistory ++ [rawFrameDelta s.engine.timing ts])

/-- The delta passed to `Engine.update` (lines 133–137, used at line 176):
the minimum over the filtered history, clamped. -/
def frameDelta (s : RunState) (ts : ℚ) : ℚ :=
  clampDelta s.engine.timing (listMin (frameHistory s ts))

/-- Embedding of one invocation of the frame callback installed by
`Engine.run` (lines 103–225).  `_requestAnimationFrame(render)` is issued
first; if the engine is disabled the callback returns at once (line 106),
touching nothing.  Otherwise it computes the filtered and clamped frame
delta (lines 128–137), the Verlet correction `delta / timing.delta`
(line 140) against the previous tick's delta, writes the timing object and
fps counter, and runs `Engine.update` followed by the event triggers.
`pairsAfter` stands for `engine.pairs` as left by `Manager.updatePairs`
(code outside this file).  Returns the new state and the emitted trace. -/
def runTickCallback (pairsAfter : Pairs) (s : RunState) (timestamp : ℚ) :
    RunState × List Ev :=
  if s.engine.enabled = false then (s, [Ev.requestFrame])
  else
    let timing := s.engine.timing
    let hist := frameHistory s timestamp
    let delta := frameDelta s timestamp
    let correction := delta / timing.delta
    let fc := s.frameCounter + 1
    let timing' : Timing :=
      { timing with
        timestamp := timestamp
        correction := correction
        delta := delta
        fps := if 1000 ≤ timestamp - s.counterTimestamp then
                 fc * ((timestamp - s.counterTimestamp) / 1000)
               else timing.fps }
    let e' := { s.engine with timing := timing' }
    ({ engine := { e' with pairs := pairsAfter }
       deltaHistory := hist
       frameCounter := if 1000 ≤ timestamp - s.counterTimestamp then 0 else fc
       counterTimestamp := if 1000 ≤ timestamp - s.counterTimestamp then
                             timestamp
                           else s.counterTimestamp },
     runTickTrace e' pairsAfter delta correction)

example : (Engine.create {}).velocityIterations = 4 := by decide
example : (Engine.create {}).positionIterations = 6 := by decide
example : (updateTrace (Engine.create {})).length = 23 := by decide

/-- Position of each `Engine.update` call in the source order of
`Engine.update` (lines 242–294); run-level events get a sentinel rank. -/
def phaseRank : Ev → ℕ
  | Ev.metricsReset => 0
  | Ev.sleepingUpdate => 1
  | Ev.applyGravityAll => 2
  | Ev.mouseConstraintUpdate => 3
  | Ev.bodyUpdateAll => 4
  | Ev.constraintUpdateAll => 5
  | Ev.gridUpdate => 6
  | Ev.detectorRun => 7
  | Ev.updatePairs _ => 8
  | Ev.removeOldPairs _ => 9
  | Ev.sleepingAfterCollisions => 10
  | Ev.preSolveVelocity => 11
  | Ev.solveVelocity => 12
  | Ev.solvePosition => 13
  | Ev.postSolvePosition => 14
  | Ev.metricsUpdate => 15
  | Ev.resetForcesAll => 16
  | _ => 100

/-- Position of each event in the source order of the `Engine.run` frame
callback; every call made inside `Engine.update` gets rank 4. -/
def runRank : Ev → ℕ
  | Ev.requestFrame => 0
  | Ev.beforeTickEvt => 1
  | Ev.tickBeforeUpdateEvt => 2
  | Ev.updateCall _ _ => 3
  | Ev.collisionStartEvt => 5
  | Ev.collisionActiveEvt => 6
  | Ev.collisionEndEvt => 7
  | Ev.mouseEvts => 8
  | Ev.afterUpdateEvt => 9
  | Ev.renderWorld => 10
  | Ev.afterTickEvt => 11
  | _ => 4

/-- The calls that `Engine.update` itself performs. -/
def isUpdatePhase : Ev → Bool
  | Ev.metricsReset => true
  | Ev.sleepingUpdate => true
  | Ev.applyGravityAll => true
  | Ev.mouseConstraintUpdate => true
  | Ev.bodyUpdateAll => true
  | Ev.constraintUpdateAll => true
  | Ev.gridUpdate => true
  | Ev.detectorRun => true
  | Ev.updatePairs _ => true
  | Ev.removeOldPairs _ => true
  | Ev.sleepingAfterCollisions => true
  | Ev.preSolveVelocity => true
  | Ev.solveVelocity => true
  | Ev.solvePosition => true
  | Ev.postSolvePosition => true
  | Ev.metricsUpdate => true
  | Ev.resetForcesAll => true
  | _ => false

/-- The three collision-event triggers of `_triggerCollisionEvents`. -/
def isCollisionEvt : Ev → Bool
  | Ev.collisionStartEvt => true
  | Ev.collisionActiveEvt => true
  | Ev.collisionEndEvt => true
  | _ => false

/-- The four `Resolver` phases called by `Engine.update`. -/
def isResolverPhase : Ev → Bool
  | Ev.preSolveVelocity => true
  | Ev.solveVelocity => true
  | Ev.solvePosition => true
  | Ev.postSolvePosition => true
  | _ => false

/-- `before t P Q`: in trace `t`, every event satisfying `P` occurs strictly
earlier than every event satisfying `Q`. -/
def before (t : List Ev) (P Q : Ev → Prop) : Prop :=
  ∀ i j, ∀ (hi : i < t.length) (hj : j < t.length),
    P (t.get ⟨i, hi⟩) → Q (t.get ⟨j, hj⟩) → i < j

/-- Comparison of events by a rank function. -/
@[reducible] def rkLe (r : Ev → ℕ) (a b : Ev) : Prop := r a ≤ r b

lemma mem_of_optEvs {c : Bool} {l : List Ev} {x : Ev} (h : x ∈ optEvs c l) :
    x ∈ l := by
  unfold optEvs at h
  split at h
  · exact h
  · exact absurd h (List.not_mem_nil x)

lemma pw_const {r : Ev → ℕ} {v : List Ev} {k : ℕ} (hv : ∀ x ∈ v, r x = k) :
    v.Pairwise (rkLe r) := by
  induction v with
  | nil => exact List.Pairwise.nil
  | cons a t ih =>
    refine List.Pairwise.cons (fun b hb => ?_)
      (ih fun x hx => hv x (List.mem_cons_of_mem _ hx))
    unfold rkLe
    rw [hv a (List.mem_cons_self a t), hv b (List.mem_cons_of_mem _ hb)]

lemma pw_app {r : Ev → ℕ} {v t : List Ev} {k : ℕ}
    (hv : v.Pairwise (rkLe r)) (hub : ∀ x ∈ v, r x ≤ k)
    (hlb : ∀ y ∈ t, k ≤ r y) (ht : t.Pairwise (rkLe r)) :
    (v ++ t).Pairwise (rkLe r) :=
  List.pairwise_append.mpr
    ⟨hv, ht, fun a ha b hb => le_trans (hub a ha) (hlb b hb)⟩

lemma pw_optEvs {r : Ev → ℕ} {c : Bool} {l : List Ev}
    (h : l.Pairwise (rkLe r)) : (optEvs c l).Pairwise (rkLe r) := by
  cases c
  · exact List.Pairwise.nil
  · exact h

lemma pw_replicate {r : Ev → ℕ} (n : ℕ) (v : Ev) :
    (List.replicate n v).Pairwise (rkLe r) :=
  pw_const (k := r v) fun x hx => by rw [List.eq_of_mem_replicate hx]

lemma lb_app {r : Ev → ℕ} {a b : List Ev} {k : ℕ}
    (ha : ∀ x ∈ a, k ≤ r x) (hb : ∀ x ∈ b, k ≤ r x) :
    ∀ x ∈ a ++ b, k ≤ r x := by
  intro x hx
  rcases List.mem_append.mp hx with h | h
  exacts [ha x h, hb x h]

lemma lb_weaken {r : Ev → ℕ} {l : List Ev} {k k' : ℕ} (hk : k ≤ k')
    (h : ∀ x ∈ l, k' ≤ r x) : ∀ x ∈ l, k ≤ r x :=
  fun x hx => le_trans hk (h x hx)

lemma lb_replicate {r : Ev → ℕ} {n : ℕ} {v : Ev} {k : ℕ} (h : k ≤ r v) :
    ∀ x ∈ List.replicate n v, k ≤ r x := by
  intro x hx
  rw [List.eq_of_mem_replicate hx]
  exact h

lemma lb_optEvs {r : Ev → ℕ} {c : Bool} {l : List Ev} {k : ℕ}
    (h : ∀ x ∈ l, k ≤ r x) : ∀ x ∈ optEvs c l, k ≤ r x :=
  fun x hx => h x (mem_of_optEvs hx)

lemma ub_replicate {r : Ev → ℕ} {n : ℕ} {v : Ev} {k : ℕ} (h : r v ≤ k) :
    ∀ x ∈ List.replicate n v, r x ≤ k := by
  intro x hx
  rw [List.eq_of_mem_replicate hx]
  exact h

lemma ub_optEvs {r : Ev → ℕ} {c : Bool} {l : List Ev} {k : ℕ}
    (h : ∀ x ∈ l, r x ≤ k) : ∀ x ∈ optEvs c l, r x ≤ k :=
  fun x hx => h x (mem_of_optEvs hx)

lemma rank_updatePairs (ts : ℚ) : phaseRank (Ev.updatePairs ts) = 8 := rfl

lemma rank_removeOldPairs (ts : ℚ) : phaseRank (Ev.removeOldPairs ts) = 9 :=
  rfl

/-- The calls of `Engine.update` are emitted in nondecreasing source order. -/
lemma updateTrace_pairwise (e : Engine) :
    (updateTrace e).Pairwise (rkLe phaseRank) := by
  unfold updateTrace
  have lb10 : ∀ x ∈ [Ev.postSolvePosition, Ev.metricsUpdate,
      Ev.resetForcesAll], 14 ≤ phaseRank x := by decide
  have pw10 : ([Ev.postSolvePosition, Ev.metricsUpdate,
      Ev.resetForcesAll]).Pairwise (rkLe phaseRank) := by decide
  have lb9 : ∀ x ∈ List.replicate e.positionIterations Ev.solvePosition
      ++ [Ev.postSolvePosition, Ev.metricsUpdate, Ev.resetForcesAll],
      13 ≤ phaseRank x :=
    lb_app (lb_replicate (by decide)) (lb_weaken (by decide) lb10)
  have pw9 : (List.replicate e.positionIterations Ev.solvePosition
      ++ [Ev.postSolvePosition, Ev.metricsUpdate,
          Ev.resetForcesAll]).Pairwise (rkLe phaseRank) :=
    pw_app (k := 13) (pw_replicate _ _) (ub_replicate (by decide))
      (lb_weaken (by decide) lb10) pw10
  have lb8 : ∀ x ∈ List.replicate e.velocityIterations Ev.solveVelocity
      ++ (List.replicate e.positionIterations Ev.solvePosition
        ++ [Ev.postSolvePosition, Ev.metricsUpdate, Ev.resetForcesAll]),
      12 ≤ phaseRank x :=
    lb_app (lb_replicate (by decide)) (lb_weaken (by decide) lb9)
  have pw8 := pw_app (k := 12) (pw_replicate (r := phaseRank)
      e.velocityIterations Ev.solveVelocity) (ub_replicate (by decide))
      (lb_weaken (by decide) lb9) pw9
  have lb7 : ∀ x ∈ [Ev.preSolveVelocity]
      ++ (List.replicate e.velocityIterations Ev.solveVelocity
      ++ (List.replicate e.positionIterations Ev.solvePosition
        ++ [Ev.postSolvePosition, Ev.metricsUpdate, Ev.resetForcesAll])),
      11 ≤ phaseRank x :=
    lb_app (by decide) (lb_weaken (by decide) lb8)
  have pw7 := pw_app (k := 11) (v := [Ev.preSolveVelocity]) (by decide)
    (by decide) (lb_weaken (by decide) lb8) pw8
  have lb6 : ∀ x ∈ optEvs e.enableSleeping [Ev.sleepingAfterCollisions]
      ++ ([Ev.preSolveVelocity]
      ++ (List.replicate e.velocityIterations Ev.solveVelocity
      ++ (List.replicate e.positionIterations Ev.solvePosition
        ++ [Ev.postSolvePosition, Ev.metricsUpdate, Ev.resetForcesAll]))),
      10 ≤ phaseRank x :=
    lb_app (lb_optEvs (by decide)) (lb_weaken (by decide) lb7)
  have pw6 := pw_app (k := 10)
    (pw_optEvs (c := e.enableSleeping)
      (l := [Ev.sleepingAfterCollisions]) (by decide))
    (ub_optEvs (l := [Ev.sleepingAfterCollisions]) (by decide))
    (lb_weaken (by decide) lb7) pw7
  have lb5seg : ∀ x ∈ [Ev.detectorRun, Ev.updatePairs e.timing.timestamp,
      Ev.removeOldPairs e.timing.timestamp], 7 ≤ phaseRank x := by
    intro x hx
    rcases List.mem_cons.mp hx with rfl | hx
    · decide
    rcases List.mem_cons.mp hx with rfl | hx
    · rw [rank_updatePairs]; omega
    rcases List.mem_cons.mp hx with rfl | hx
    · rw [rank_removeOldPairs]; omega
    · exact absurd hx (List.not_mem_nil x)
  have ub5seg : ∀ x ∈ [Ev.detectorRun, Ev.updatePairs e.timing.timestamp,
      Ev.removeOldPairs e.timing.timestamp], phaseRank x ≤ 9 := by
    intro x hx
    rcases List.mem_cons.mp hx with rfl | hx
    · decide
    rcases List.mem_cons.mp hx with rfl | hx
    · rw [rank_updatePairs]; omega
    rcases List.mem_cons.mp hx with rfl | hx
    · rw [rank_removeOldPairs]
    · exact absurd hx (List.not_mem_nil x)
  have pw5seg : ([Ev.detectorRun, Ev.updatePairs e.timing.timestamp,
      Ev.removeOldPairs e.timing.timestamp]).Pairwise (rkLe phaseRank) := by
    refine List.Pairwise.cons (fun b hb => ?_)
      (List.Pairwise.cons (fun b hb => ?_)
        (List.Pairwise.cons (fun b hb => absurd hb (List.not_mem_nil b))
          List.Pairwise.nil))
    · have h7 : phaseRank Ev.detectorRun = 7 := rfl
      have := ub5seg b (List.mem_cons_of_mem _ hb)
      have := lb5seg b (List.mem_cons_of_mem _ hb)
      unfold rkLe
      omega
    · rcases List.mem_cons.mp hb with rfl | hb
      · unfold rkLe
        rw [rank_updatePairs, rank_removeOldPairs]
        omega
      · exact absurd hb (List.not_mem_nil b)
  have lb5 := lb_app lb5seg (lb_weaken (by decide) lb6)
  have pw5 := pw_app (k := 9) pw5seg ub5seg (lb_weaken (by decide) lb6) pw6
  have lb4 := lb_app
    (lb_optEvs (r := phaseRank) (c := e.broadphaseHasController)
      (l := [Ev.gridUpdate]) (k := 6) (by decide))
    (lb_weaken (by decide) lb5)
  have pw4 := pw_app (k := 6)
    (pw_optEvs (c := e.broadphaseHasController) (l := [Ev.gridUpdate])
      (by decide))
    (ub_optEvs (l := [Ev.gridUpdate]) (by decide))
    (lb_weaken (by decide) lb5) pw5
  have lb3 := lb_app
    (lb_replicate (r := phaseRank) (n := e.constraintIterations)
      (v := Ev.constraintUpdateAll) (k := 5) (by decide))
    (lb_weaken (by decide) lb4)
  have pw3 := pw_app (k := 5)
    (pw_replicate (r := phaseRank) e.constraintIterations
      Ev.constraintUpdateAll)
    (ub_replicate (by decide)) (lb_weaken (by decide) lb4) pw4
  have lb2 := lb_app (a := [Ev.applyGravityAll, Ev.mouseConstraintUpdate,
    Ev.bodyUpdateAll]) (k := 2) (by decide) (lb_weaken (by decide) lb3)
  have pw2 := pw_app (k := 4)
    (v := [Ev.applyGravityAll, Ev.mouseConstraintUpdate, Ev.bodyUpdateAll])
    (by decide) (by decide) (lb_weaken (by decide) lb3) pw3
  have lb1 := lb_app
    (lb_optEvs (r := phaseRank) (c := e.enableSleeping)
      (l := [Ev.sleepingUpdate]) (k := 1) (by decide))
    (lb_weaken (by decide) lb2)
  have pw1 := pw_app (k := 1)
    (pw_optEvs (c := e.enableSleeping) (l := [Ev.sleepingUpdate])
      (by decide))
    (ub_optEvs (l := [Ev.sleepingUpdate]) (by decide))
    (lb_weaken (by decide) lb2) pw2
  exact pw_app (k := 0) (v := [Ev.metricsReset]) (by decide) (by decide)
    (fun y _ => Nat.zero_le _) pw1

/-- From rank-monotonicity of a trace: anything of strictly smaller rank
comes strictly earlier. -/
lemma before_of_pairwise {r : Ev → ℕ} {t : List Ev} {P Q : Ev → Prop}
    (hpw : t.Pairwise (rkLe r)) (hPQ : ∀ x y, P x → Q y → r x < r y) :
    before t P Q := by
  intro i j hi hj hP hQ
  rcases Nat.lt_trichotomy i j with h | h | h
  · exact h
  · subst h
    exact absurd (hPQ _ _ hP hQ) (lt_irrefl _)
  · have hle := List.pairwise_iff_get.mp hpw ⟨j, hj⟩ ⟨i, hi⟩ h
    exact absurd (hPQ _ _ hP hQ) (not_lt.mpr hle)

lemma forall_mem_app {P : Ev → Prop} {a b : List Ev}
    (ha : ∀ x ∈ a, P x) (hb : ∀ x ∈ b, P x) : ∀ x ∈ a ++ b, P x := by
  intro x hx
  rcases List.mem_append.mp hx with h | h
  exacts [ha x h, hb x h]

lemma forall_mem_replicate {P : Ev → Prop} {n : ℕ} {v : Ev} (h : P v) :
    ∀ x ∈ List.replicate n v, P x := by
  intro x hx
  rw [List.eq_of_mem_replicate hx]
  exact h

lemma forall_mem_optEvs {P : Ev → Prop} {c : Bool} {l : List Ev}
    (h : ∀ x ∈ l, P x) : ∀ x ∈ optEvs c l, P x :=
  fun x hx => h x (mem_of_optEvs hx)

lemma forall_mem_triple {P : Ev → Prop} {a b c : Ev}
    (ha : P a) (hb : P b) (hc : P c) : ∀ x ∈ [a, b, c], P x := by
  intro x hx
  rcases List.mem_cons.mp hx with rfl | hx
  · exact ha
  rcases List.mem_cons.mp hx with rfl | hx
  · exact hb
  rcases List.mem_cons.mp hx with rfl | hx
  · exact hc
  · exact absurd hx (List.not_mem_nil x)

/-- Everything `Engine.update` emits is one of its own seventeen calls. -/
lemma updatePhase_of_mem (e : Engine) :
    ∀ x ∈ updateTrace e, isUpdatePhase x = true := by
  unfold updateTrace
  refine forall_mem_app (by decide)
    (forall_mem_app (forall_mem_optEvs (by decide))
      (forall_mem_app (by decide)
        (forall_mem_app (forall_mem_replicate (by decide))
          (forall_mem_app (forall_mem_optEvs (by decide))
            (forall_mem_app (forall_mem_triple rfl rfl rfl)
              (forall_mem_app (forall_mem_optEvs (by decide))
                (forall_mem_app (by decide)
                  (forall_mem_app (forall_mem_replicate (by decide))
                    (forall_mem_app (forall_mem_replicate (by decide))
                      (by decide))))))))))

lemma runRank_of_updatePhase :
    ∀ x, isUpdatePhase x = true → runRank x = 4 := by
  intro x
  cases x <;> first | (intro h; rfl) | (intro h; simp [isUpdatePhase] at h)

lemma runRank4_of_mem (e : Engine) : ∀ x ∈ updateTrace e, runRank x = 4 :=
  fun x hx => runRank_of_updatePhase x (updatePhase_of_mem e x hx)

/-- The events of one enabled frame are emitted in nondecreasing source
order of the `Engine.run` callback. -/
lemma runTickTrace_pairwise (e' : Engine) (pa : Pairs) (d c : ℚ) :
    (runTickTrace e' pa d c).Pairwise (rkLe runRank) := by
  unfold runTickTrace
  have lbH : ∀ x ∈ [Ev.afterTickEvt], 11 ≤ runRank x := by decide
  have pwH : ([Ev.afterTickEvt]).Pairwise (rkLe runRank) := by decide
  have lbG := lb_app
    (lb_optEvs (r := runRank) (c := e'.renderEnabled)
      (l := [Ev.renderWorld]) (k := 10) (by decide))
    (lb_weaken (by decide) lbH)
  have pwG := pw_app (k := 10)
    (pw_optEvs (c := e'.renderEnabled) (l := [Ev.renderWorld]) (by decide))
    (ub_optEvs (l := [Ev.renderWorld]) (by decide))
    (lb_weaken (by decide) lbH) pwH
  have lbF := lb_app (a := [Ev.mouseEvts, Ev.afterUpdateEvt]) (k := 8)
    (by decide) (lb_weaken (by decide) lbG)
  have pwF := pw_app (k := 9) (v := [Ev.mouseEvts, Ev.afterUpdateEvt])
    (by decide) (by decide) (lb_weaken (by decide) lbG) pwG
  have lbE := lb_app
    (lb_optEvs (r := runRank) (c := pa.collisionEnd.length != 0)
      (l := [Ev.collisionEndEvt]) (k := 7) (by decide))
    (lb_weaken (by decide) lbF)
  have pwE := pw_app (k := 7)
    (pw_optEvs (c := pa.collisionEnd.length != 0)
      (l := [Ev.collisionEndEvt]) (by decide))
    (ub_optEvs (l := [Ev.collisionEndEvt]) (by decide))
    (lb_weaken (by decide) lbF) pwF
  have lbD := lb_app
    (lb_optEvs (r := runRank) (c := pa.collisionActive.length != 0)
      (l := [Ev.collisionActiveEvt]) (k := 6) (by decide))
    (lb_weaken (by decide) lbE)
  have pwD := pw_app (k := 6)
    (pw_optEvs (c := pa.collisionActive.length != 0)
      (l := [Ev.collisionActiveEvt]) (by decide))
    (ub_optEvs (l := [Ev.collisionActiveEvt]) (by decide))
    (lb_weaken (by decide) lbE) pwE
  have lbC := lb_app
    (lb_optEvs (r := runRank) (c := pa.collisionStart.length != 0)
      (l := [Ev.collisionStartEvt]) (k := 5) (by decide))
    (lb_weaken (by decide) lbD)
  have pwC := pw_app (k := 5)
    (pw_optEvs (c := pa.collisionStart.length != 0)
      (l := [Ev.collisionStartEvt]) (by decide))
    (ub_optEvs (l := [Ev.collisionStartEvt]) (by decide))
    (lb_weaken (by decide) lbD) pwD
  have lbB : ∀ x ∈ updateTrace e', 4 ≤ runRank x :=
    fun x hx => le_of_eq (runRank4_of_mem e' x hx).symm
  have ubB : ∀ x ∈ updateTrace e', runRank x ≤ 4 :=
    fun x hx => le_of_eq (runRank4_of_mem e' x hx)
  have lbBrest := lb_app lbB (lb_weaken (by decide) lbC)
  have pwB := pw_app (k := 4) (pw_const (runRank4_of_mem e')) ubB
    (lb_weaken (by decide) lbC) pwC
  have pwA : ([Ev.requestFrame, Ev.beforeTickEvt, Ev.tickBeforeUpdateEvt,
      Ev.updateCall d c]).Pairwise (rkLe runRank) := by
    refine List.Pairwise.cons ?_ (List.Pairwise.cons ?_
      (List.Pairwise.cons ?_ (List.Pairwise.cons
        (fun b hb => absurd hb (List.not_mem_nil b)) List.Pairwise.nil)))
    · intro b hb
      rcases List.mem_cons.mp hb with rfl | hb
      · decide
      rcases List.mem_cons.mp hb with rfl | hb
      · decide
      rcases List.mem_cons.mp hb with rfl | hb
      · norm_num [rkLe, runRank]
      · exact absurd hb (List.not_mem_nil b)
    · intro b hb
      rcases List.mem_cons.mp hb with rfl | hb
      · decide
      rcases List.mem_cons.mp hb with rfl | hb
      · norm_num [rkLe, runRank]
      · exact absurd hb (List.not_mem_nil b)
    · intro b hb
      rcases List.mem_cons.mp hb with rfl | hb
      · norm_num [rkLe, runRank]
      · exact absurd hb (List.not_mem_nil b)
  have ubA : ∀ x ∈ [Ev.requestFrame, Ev.beforeTickEvt,
      Ev.tickBeforeUpdateEvt, Ev.updateCall d c], runRank x ≤ 3 := by
    intro x hx
    rcases List.mem_cons.mp hx with rfl | hx
    · decide
    rcases List.mem_cons.mp hx with rfl | hx
    · decide
    rcases List.mem_cons.mp hx with rfl | hx
    · decide
    rcases List.mem_cons.mp hx with rfl | hx
    · simp [runRank]
    · exact absurd hx (List.not_mem_nil x)
  exact pw_app (k := 3) pwA ubA (lb_weaken (by decide) lbBrest) pwB

/-- Position of each call in the spec's seven-phase sequence
Grid → Detect → Pair-merge → Sleep-wake → Velocity-solve → Position-solve
→ metrics; `none` for calls outside the seven named phases.  Both pair
manager calls belong to the pair-merge phase. -/
def specPhaseOrder : Ev → Option ℕ
  | Ev.gridUpdate => some 0
  | Ev.detectorRun => some 1
  | Ev.updatePairs _ => some 2
  | Ev.removeOldPairs _ => some 2
  | Ev.sleepingAfterCollisions => some 3
  | Ev.solveVelocity => some 4
  | Ev.solvePosition => some 5
  | Ev.metricsUpdate => some 6
  | _ => none

set_option maxHeartbeats 1000000 in
lemma phaseRank_lt_of_specOrder {x y : Ev} {a b : ℕ}
    (hx : specPhaseOrder x = some a) (hy : specPhaseOrder y = some b)
    (hab : a < b) : phaseRank x < phaseRank y := by
  cases x <;> cases y <;> simp_all [specPhaseOrder, phaseRank] <;> omega

/-- C1 (amended).  Within every tick, the seven spec phases execute
strictly in the sequence Grid → Detect → Pair-merge → Sleep-wake →
Velocity-solve → Position-solve → metrics; the Verlet integrator
(`Body.updateAll`) applies body state near the start of the tick, before
the grid update, and after the resolver's position iterations it is
`Resolver.postSolvePosition` that applies the accumulated positional
corrections. -/
theorem engine_update_phase_order (e : Engine) :
    (∀ i j (hi : i < (updateTrace e).length)
       (hj : j < (updateTrace e).length) (a b : ℕ),
       specPhaseOrder ((updateTrace e).get ⟨i, hi⟩) = some a →
       specPhaseOrder ((updateTrace e).get ⟨j, hj⟩) = some b → a < b →
       i < j)
    ∧ before (updateTrace e) (fun x => x = Ev.bodyUpdateAll)
        (fun x => x = Ev.gridUpdate)
    ∧ before (updateTrace e) (fun x => x = Ev.solvePosition)
        (fun x => x = Ev.postSolvePosition) := by
  refine ⟨?_, ?_, ?_⟩
  · intro i j hi hj a b hx hy hab
    rcases Nat.lt_trichotomy i j with h | h | h
    · exact h
    · subst h
      rw [hx] at hy
      injection hy with hy
      omega
    · have hle := List.pairwise_iff_get.mp (updateTrace_pairwise e)
        ⟨j, hj⟩ ⟨i, hi⟩ h
      exact absurd (phaseRank_lt_of_specOrder hx hy hab) (not_lt.mpr hle)
  · exact before_of_pairwise (updateTrace_pairwise e)
      (by rintro x y rfl rfl; decide)
  · exact before_of_pairwise (updateTrace_pairwise e)
      (by rintro x y rfl rfl; decide)

/-- C1 (counterexample to the claim as stated): on a default-configured
engine, the integrator call `Body.updateAll` does not come after the
resolver phases — it precedes them (index 3 versus the velocity-solve call
at index 10), refuting "the integrator applying the bodies' final state
after the resolver phases". -/
theorem engine_update_integrator_not_after_resolver :
    ¬ before (updateTrace (Engine.create {}))
        (fun x => isResolverPhase x = true)
        (fun x => x = Ev.bodyUpdateAll) := by
  intro h
  have h1 := h 10 3 (by decide) (by decide) (by decide) (by decide)
  omega

lemma runRank_update_lt_collision : ∀ x y, isUpdatePhase x = true →
    isCollisionEvt y = true → runRank x < runRank y := by
  intro x y hx hy
  rw [runRank_of_updatePhase x hx]
  cases y <;> revert hy <;>
    first
      | decide
      | (intro hy; simp [isCollisionEvt] at hy)

/-- C2: `Engine.update` never triggers a collision event (its trace contains
none), and in every frame of `Engine.run` each collision-event trigger
occurs strictly after every call made inside `Engine.update`: dispatch
happens only once `Engine.update` has returned. -/
theorem collision_events_only_after_update :
    (∀ (e : Engine), ∀ x ∈ updateTrace e, isCollisionEvt x = false)
    ∧ (∀ (pa : Pairs) (s : RunState) (ts : ℚ),
        before (runTickCallback pa s ts).2
          (fun x => isUpdatePhase x = true)
          (fun x => isCollisionEvt x = true)) := by
  constructor
  · intro e x hx
    have h := updatePhase_of_mem e x hx
    cases x <;> simp_all [isUpdatePhase, isCollisionEvt]
  · intro pa s ts
    unfold runTickCallback
    split
    · exact before_of_pairwise (r := runRank)
        (List.Pairwise.cons (fun b hb => absurd hb (List.not_mem_nil b))
          List.Pairwise.nil)
        runRank_update_lt_collision
    · exact before_of_pairwise (runTickTrace_pairwise _ _ _ _)
        runRank_update_lt_collision

/-- C2 witness: instantiation at a concrete engine, run state, timestamp
and pair table. -/
theorem collision_events_only_after_update_witness :
    (∀ x ∈ updateTrace (Engine.create {}), isCollisionEvt x = false)
    ∧ before (runTickCallback emptyPairs
        { engine := Engine.create {}, deltaHistory := [], frameCounter := 0,
          counterTimestamp := 0 } 16).2
        (fun x => isUpdatePhase x = true)
        (fun x => isCollisionEvt x = true) :=
  ⟨collision_events_only_after_update.1 (Engine.create {}),
   collision_events_only_after_update.2 emptyPairs
     { engine := Engine.create {}, deltaHistory := [], frameCounter := 0,
       counterTimestamp := 0 } 16⟩

/-- C3: with no override in the options, `Engine.create` returns an engine
with `velocityIterations = 4` and `positionIterations = 6`. -/
theorem engine_create_default_iterations (opts : EngineOptions)
    (hv : opts.velocityIterations = none)
    (hp : opts.positionIterations = none) :
    (Engine.create opts).velocityIterations = 4
    ∧ (Engine.create opts).positionIterations = 6 := by
  simp [Engine.create, hv, hp]

/-- C3 witness: the empty options override neither count. -/
theorem engine_create_default_iterations_witness :
    ({} : EngineOptions).velocityIterations = none
    ∧ ({} : EngineOptions).positionIterations = none
    ∧ ((Engine.create {}).velocityIterations = 4
      ∧ (Engine.create {}).positionIterations = 6) :=
  ⟨rfl, rfl, engine_create_default_iterations {} rfl rfl⟩

/-- C9: `Engine.create` defaults `enableSleeping` to `false`, and a tick of
an engine with sleeping disabled calls neither `Sleeping.update` nor
`Sleeping.afterCollisions`. -/
theorem sleeping_disabled_by_default (opts : EngineOptions) (e : Engine)
    (ho : opts.enableSleeping = none) (he : e.enableSleeping = false) :
    (Engine.create opts).enableSleeping = false
    ∧ Ev.sleepingUpdate ∉ updateTrace e
    ∧ Ev.sleepingAfterCollisions ∉ updateTrace e := by
  have hall : ∀ x ∈ updateTrace e,
      x ≠ Ev.sleepingUpdate ∧ x ≠ Ev.sleepingAfterCollisions := by
    unfold updateTrace
    rw [he]
    refine forall_mem_app (by decide)
      (forall_mem_app (by decide)
        (forall_mem_app (by decide)
          (forall_mem_app (forall_mem_replicate (by decide))
            (forall_mem_app (forall_mem_optEvs (by decide))
              (forall_mem_app
                (forall_mem_triple (by decide) (by simp) (by simp))
                (forall_mem_app (by decide)
                  (forall_mem_app (by decide)
                    (forall_mem_app (forall_mem_replicate (by decide))
                      (forall_mem_app (forall_mem_replicate (by decide))
                        (by decide))))))))))
  refine ⟨by simp [Engine.create, ho], ?_, ?_⟩
  · intro hx
    exact (hall _ hx).1 rfl
  · intro hx
    exact (hall _ hx).2 rfl

/-- C9 witness: instantiation at the empty options and the default engine. -/
theorem sleeping_disabled_by_default_witness :
    ({} : EngineOptions).enableSleeping = none
    ∧ (Engine.create {}).enableSleeping = false
    ∧ ((Engine.create {}).enableSleeping = false
      ∧ Ev.sleepingUpdate ∉ updateTrace (Engine.create {})
      ∧ Ev.sleepingAfterCollisions ∉ updateTrace (Engine.create {})) :=
  ⟨rfl, rfl, sleeping_disabled_by_default {} (Engine.create {}) rfl rfl⟩

/-- C10: when `engine.enabled` is false the frame callback requests the
next animation frame and returns at once: no timing update, no
`Engine.update`, no event trigger, and the run state is unchanged. -/
theorem run_callback_disabled_is_noop (pa : Pairs) (s : RunState) (ts : ℚ)
    (h : s.engine.enabled = false) :
    runTickCallback pa s ts = (s, [Ev.requestFrame]) := by
  unfold runTickCallback
  rw [if_pos h]

/-- C10 witness: a concrete disabled engine. -/
theorem run_callback_disabled_is_noop_witness :
    ({ engine := Engine.create { enabled := some false },
       deltaHistory := [], frameCounter := 0,
       counterTimestamp := 0 } : RunState).engine.enabled = false
    ∧ runTickCallback emptyPairs
        { engine := Engine.create { enabled := some false },
          deltaHistory := [], frameCounter := 0, counterTimestamp := 0 } 16
      = ({ engine := Engine.create { enabled := some false },
           deltaHistory := [], frameCounter := 0, counterTimestamp := 0 },
         [Ev.requestFrame]) :=
  ⟨rfl, run_callback_disabled_is_noop emptyPairs _ 16 rfl⟩

lemma count_optEvs (a : Ev) (c : Bool) (l : List Ev) :
    (optEvs c l).count a = if c then l.count a else 0 := by
  cases c <;> simp [optEvs]

/-- C4: each tick applies the warm-started impulses via a single
`Resolver.preSolveVelocity` call, performs `velocityIterations` calls to
`Resolver.solveVelocity` — all after the pre-solve — and only then the
`positionIterations` calls to `Resolver.solvePosition`. -/
theorem resolver_presolve_once_then_velocity_then_position (e : Engine) :
    (updateTrace e).count Ev.preSolveVelocity = 1
    ∧ (updateTrace e).count Ev.solveVelocity = e.velocityIterations
    ∧ (updateTrace e).count Ev.solvePosition = e.positionIterations
    ∧ before (updateTrace e) (fun x => x = Ev.preSolveVelocity)
        (fun x => x = Ev.solveVelocity)
    ∧ before (updateTrace e) (fun x => x = Ev.solveVelocity)
        (fun x => x = Ev.solvePosition) := by
  refine ⟨?_, ?_, ?_, ?_, ?_⟩
  · unfold updateTrace
    simp [List.count_append, count_optEvs, List.count_replicate,
      List.count_cons]
  · unfold updateTrace
    simp [List.count_append, count_optEvs, List.count_replicate,
      List.count_cons]
  · unfold updateTrace
    simp [List.count_append, count_optEvs, List.count_replicate,
      List.count_cons]
  · exact before_of_pairwise (updateTrace_pairwise e)
      (by rintro x y rfl rfl; decide)
  · exact before_of_pairwise (updateTrace_pairwise e)
      (by rintro x y rfl rfl; decide)

/-- C5: each tick calls `Manager.updatePairs` exactly once and
`Manager.removeOldPairs` exactly once, the only timestamp either ever
receives is the engine's current `timing.timestamp`, and the merge
precedes the eviction. -/
theorem pairs_merge_then_evict_same_timestamp (e : Engine) :
    (updateTrace e).count (Ev.updatePairs e.timing.timestamp) = 1
    ∧ (updateTrace e).count (Ev.removeOldPairs e.timing.timestamp) = 1
    ∧ (∀ x ∈ updateTrace e, ∀ ts : ℚ,
        (x = Ev.updatePairs ts → ts = e.timing.timestamp)
        ∧ (x = Ev.removeOldPairs ts → ts = e.timing.timestamp))
    ∧ before (updateTrace e) (fun x => ∃ ts, x = Ev.updatePairs ts)
        (fun x => ∃ ts, x = Ev.removeOldPairs ts) := by
  refine ⟨?_, ?_, ?_, ?_⟩
  · unfold updateTrace
    simp [List.count_append, count_optEvs, List.count_replicate,
      List.count_cons]
  · unfold updateTrace
    simp [List.count_append, count_optEvs, List.count_replicate,
      List.count_cons]
  · unfold updateTrace
    refine forall_mem_app (by simp)
      (forall_mem_app (forall_mem_optEvs (by simp))
        (forall_mem_app (by simp)
          (forall_mem_app (forall_mem_replicate (by simp))
            (forall_mem_app (forall_mem_optEvs (by simp))
              (forall_mem_app (forall_mem_triple (by simp) ?hup ?hrm)
                (forall_mem_app (forall_mem_optEvs (by simp))
                  (forall_mem_app (by simp)
                    (forall_mem_app (forall_mem_replicate (by simp))
                      (forall_mem_app (forall_mem_replicate (by simp))
                        (by simp))))))))))
    case hup =>
      intro ts
      constructor
      · intro h
        injection h with h
        exact h.symm
      · intro h
        exact absurd h (by simp)
    case hrm =>
      intro ts
      constructor
      · intro h
        exact absurd h (by simp)
      · intro h
        injection h with h
        exact h.symm
  · exact before_of_pairwise (updateTrace_pairwise e)
      (by
        rintro x y ⟨ts, rfl⟩ ⟨ts2, rfl⟩
        rw [rank_updatePairs, rank_removeOldPairs]
        omega)

/-- C6: with sleeping enabled, `Sleeping.afterCollisions` is called during
the tick, after both pair-manager calls and before the warm-start
application and every velocity-solve iteration. -/
theorem sleeping_wake_between_pairs_and_solving (e : Engine)
    (hs : e.enableSleeping = true) :
    Ev.sleepingAfterCollisions ∈ updateTrace e
    ∧ before (updateTrace e)
        (fun x => (∃ ts, x = Ev.updatePairs ts)
          ∨ (∃ ts, x = Ev.removeOldPairs ts))
        (fun x => x = Ev.sleepingAfterCollisions)
    ∧ before (updateTrace e) (fun x => x = Ev.sleepingAfterCollisions)
        (fun x => x = Ev.preSolveVelocity)
    ∧ before (updateTrace e) (fun x => x = Ev.sleepingAfterCollisions)
        (fun x => x = Ev.solveVelocity) := by
  refine ⟨?_, ?_, ?_, ?_⟩
  · unfold updateTrace
    rw [hs]
    simp [optEvs]
  · exact before_of_pairwise (updateTrace_pairwise e)
      (by
        rintro x y (⟨ts, rfl⟩ | ⟨ts, rfl⟩) rfl <;>
          norm_num [phaseRank])
  · exact before_of_pairwise (updateTrace_pairwise e)
      (by rintro x y rfl rfl; decide)
  · exact before_of_pairwise (updateTrace_pairwise e)
      (by rintro x y rfl rfl; decide)

/-- C6 witness: a default engine with sleeping switched on. -/
theorem sleeping_wake_between_pairs_and_solving_witness :
    (Engine.create { enableSleeping := some true }).enableSleeping = true
    ∧ (Ev.sleepingAfterCollisions
        ∈ updateTrace (Engine.create { enableSleeping := some true })
      ∧ before (updateTrace (Engine.create { enableSleeping := some true }))
          (fun x => (∃ ts, x = Ev.updatePairs ts)
            ∨ (∃ ts, x = Ev.removeOldPairs ts))
          (fun x => x = Ev.sleepingAfterCollisions)
      ∧ before (updateTrace (Engine.create { enableSleeping := some true }))
          (fun x => x = Ev.sleepingAfterCollisions)
          (fun x => x = Ev.preSolveVelocity)
      ∧ before (updateTrace (Engine.create { enableSleeping := some true }))
          (fun x => x = Ev.sleepingAfterCollisions)
          (fun x => x = Ev.solveVelocity)) :=
  ⟨rfl, sleeping_wake_between_pairs_and_solving _ rfl⟩

/-- C7: each tick runs `Constraint.updateAll` exactly
`engine.constraintIterations` times, all of them before the broad-phase
grid update, and `Engine.create` defaults `constraintIterations` to 1. -/
theorem constraints_before_broadphase (opts : EngineOptions) (e : Engine)
    (hc : opts.constraintIterations = none) :
    (Engine.create opts).constraintIterations = 1
    ∧ (updateTrace e).count Ev.constraintUpdateAll = e.constraintIterations
    ∧ before (updateTrace e) (fun x => x = Ev.constraintUpdateAll)
        (fun x => x = Ev.gridUpdate) := by
  refine ⟨by simp [Engine.create, hc], ?_, ?_⟩
  · unfold updateTrace
    simp [List.count_append, count_optEvs, List.count_replicate,
      List.count_cons]
  · exact before_of_pairwise (updateTrace_pairwise e)
      (by rintro x y rfl rfl; decide)

/-- C7 witness: the empty options and the default engine. -/
theorem constraints_before_broadphase_witness :
    ({} : EngineOptions).constraintIterations = none
    ∧ ((Engine.create {}).constraintIterations = 1
      ∧ (updateTrace (Engine.create {})).count Ev.constraintUpdateAll
          = (Engine.create {}).constraintIterations
      ∧ before (updateTrace (Engine.create {}))
          (fun x => x = Ev.constraintUpdateAll)
          (fun x => x = Ev.gridUpdate)) :=
  ⟨rfl, constraints_before_broadphase {} (Engine.create {}) rfl⟩

lemma listMin_mem : ∀ {l : List ℚ}, l ≠ [] → listMin l ∈ l := by
  intro l
  induction l with
  | nil => intro h; exact absurd rfl h
  | cons x t ih =>
    intro _
    cases t with
    | nil => simp [listMin]
    | cons y u =>
      have hm : listMin (x :: y :: u) = min x (listMin (y :: u)) := rfl
      rcases le_total x (listMin (y :: u)) with hle | hle
      · rw [hm, min_eq_left hle]
        exact List.mem_cons_self x (y :: u)
      · rw [hm, min_eq_right hle]
        exact List.mem_cons_of_mem x (ih (by simp))

lemma listMin_le {l : List ℚ} : ∀ x ∈ l, listMin l ≤ x := by
  induction l with
  | nil => intro x hx; exact absurd hx (List.not_mem_nil x)
  | cons a t ih =>
    intro x hx
    cases t with
    | nil =>
      rcases List.mem_cons.mp hx with rfl | hx
      · exact le_refl x
      · exact absurd hx (List.not_mem_nil x)
    | cons y u =>
      have hm : listMin (a :: y :: u) = min a (listMin (y :: u)) := rfl
      rcases List.mem_cons.mp hx with rfl | hx
      · rw [hm]
        exact min_le_left _ _
      · rw [hm]
        exact le_trans (min_le_right _ _) (ih x hx)

lemma clampDelta_ge (timing : Timing) (d : ℚ)
    (h : timing.deltaMin ≤ timing.deltaMax) :
    timing.deltaMin ≤ clampDelta timing d := by
  unfold clampDelta
  split_ifs <;> linarith

lemma clampDelta_le (timing : Timing) (d : ℚ) :
    clampDelta timing d ≤ timing.deltaMax := by
  unfold clampDelta
  split_ifs <;> linarith

lemma frameHistory_ne_nil (s : RunState) (ts : ℚ) :
    frameHistory s ts ≠ [] := by
  unfold frameHistory lastN deltaSampleSize
  intro h
  have hlen := congrArg List.length h
  rw [List.length_drop, List.length_append] at hlen
  simp at hlen
  omega

lemma frameHistory_length_le (s : RunState) (ts : ℚ) :
    (frameHistory s ts).length ≤ deltaSampleSize := by
  unfold frameHistory lastN
  rw [List.length_drop]
  omega

lemma frameHistory_suffix (s : RunState) (ts : ℚ) :
    frameHistory s ts
      <:+ s.deltaHistory ++ [rawFrameDelta s.engine.timing ts] :=
  ⟨(s.deltaHistory ++ [rawFrameDelta s.engine.timing ts]).take _,
    List.take_append_drop _ _⟩

/-- C8: in every enabled frame, the delta handed to `Engine.update` is the
minimum over the last up-to-8 raw frame deltas (current one included),
clamped into `[timing.deltaMin, timing.deltaMax]`, and the accompanying
correction is exactly that clamped delta divided by the previous tick's
delta, so the update is parameterized purely by this bounded pair. -/
theorem run_bounded_delta_correction (pa : Pairs) (s : RunState) (ts : ℚ)
    (hen : s.engine.enabled = true)
    (hmm : s.engine.timing.deltaMin ≤ s.engine.timing.deltaMax) :
    Ev.updateCall (frameDelta s ts)
        (frameDelta s ts / s.engine.timing.delta)
      ∈ (runTickCallback pa s ts).2
    ∧ s.engine.timing.deltaMin ≤ frameDelta s ts
    ∧ frameDelta s ts ≤ s.engine.timing.deltaMax
    ∧ listMin (frameHistory s ts) ∈ frameHistory s ts
    ∧ (∀ x ∈ frameHistory s ts, listMin (frameHistory s ts) ≤ x)
    ∧ (frameHistory s ts).length ≤ deltaSampleSize
    ∧ frameHistory s ts
        <:+ s.deltaHistory ++ [rawFrameDelta s.engine.timing ts] := by
  refine ⟨?_, clampDelta_ge _ _ hmm, clampDelta_le _ _,
    listMin_mem (frameHistory_ne_nil s ts), fun x hx => listMin_le x hx,
    frameHistory_length_le s ts, frameHistory_suffix s ts⟩
  unfold runTickCallback
  rw [if_neg (by simp [hen])]
  simp [runTickTrace]

/-- The run state used to witness the frame-delta claim: a freshly created
default engine with empty delta history. -/
def sampleState : RunState :=
  { engine := Engine.create {}, deltaHistory := [], frameCounter := 0,
    counterTimestamp := 0 }

/-- C8 witness: the default engine, empty history and timestamp 16. -/
theorem run_bounded_delta_correction_witness :
    sampleState.engine.enabled = true
    ∧ sampleState.engine.timing.deltaMin
        ≤ sampleState.engine.timing.deltaMax
    ∧ (Ev.updateCall (frameDelta sampleState 16)
          (frameDelta sampleState 16 / sampleState.engine.timing.delta)
        ∈ (runTickCallback emptyPairs sampleState 16).2
      ∧ sampleState.engine.timing.deltaMin ≤ frameDelta sampleState 16
      ∧ frameDelta sampleState 16 ≤ sampleState.engine.timing.deltaMax
      ∧ listMin (frameHistory sampleState 16) ∈ frameHistory sampleState 16
      ∧ (∀ x ∈ frameHistory sampleState 16,
          listMin (frameHistory sampleState 16) ≤ x)
      ∧ (frameHistory sampleState 16).length ≤ deltaSampleSize
      ∧ frameHistory sampleState 16
          <:+ sampleState.deltaHistory
            ++ [rawFrameDelta sampleState.engine.timing 16]) :=
  ⟨rfl,
    by norm_num [sampleState, Engine.create, defaultTiming, engineFps],
    run_bounded_delta_correction emptyPairs sampleState 16 rfl
      (by norm_num [sampleState, Engine.create, defaultTiming, engineFps])⟩

/-- C1 witness: the phase-order theorem instantiated at a default engine. -/
theorem engine_update_phase_order_witness :
    (∀ i j (hi : i < (updateTrace (Engine.create {})).length)
       (hj : j < (updateTrace (Engine.create {})).length) (a b : ℕ),
       specPhaseOrder ((updateTrace (Engine.create {})).get ⟨i, hi⟩)
           = some a →
       specPhaseOrder ((updateTrace (Engine.create {})).get ⟨j, hj⟩)
           = some b → a < b → i < j)
    ∧ before (updateTrace (Engine.create {}))
        (fun x => x = Ev.bodyUpdateAll) (fun x => x = Ev.gridUpdate)
    ∧ before (updateTrace (Engine.create {}))
        (fun x => x = Ev.solvePosition)
        (fun x => x = Ev.postSolvePosition) :=
  engine_update_phase_order (Engine.create {})

/-- C4 witness: the resolver-structure theorem at a default engine. -/
theorem resolver_presolve_once_then_velocity_then_position_witness :
    (updateTrace (Engine.create {})).count Ev.preSolveVelocity = 1
    ∧ (updateTrace (Engine.create {})).count Ev.solveVelocity
        = (Engine.create {}).velocityIterations
    ∧ (updateTrace (Engine.create {})).count Ev.solvePosition
        = (Engine.create {}).positionIterations
    ∧ before (updateTrace (Engine.create {}))
        (fun x => x = Ev.preSolveVelocity)
        (fun x => x = Ev.solveVelocity)
    ∧ before (updateTrace (Engine.create {}))
        (fun x => x = Ev.solveVelocity)
        (fun x => x = Ev.solvePosition) :=
  resolver_presolve_once_then_velocity_then_position (Engine.create {})

/-- C5 witness: the pair-manager theorem at a default engine. -/
theorem pairs_merge_then_evict_same_timestamp_witness :
    (updateTrace (Engine.create {})).count
        (Ev.updatePairs (Engine.create {}).timing.timestamp) = 1
    ∧ (updateTrace (Engine.create {})).count
        (Ev.removeOldPairs (Engine.create {}).timing.timestamp) = 1
    ∧ (∀ x ∈ updateTrace (Engine.create {}), ∀ ts : ℚ,
        (x = Ev.updatePairs ts → ts = (Engine.create {}).timing.timestamp)
        ∧ (x = Ev.removeOldPairs ts
            → ts = (Engine.create {}).timing.timestamp))
    ∧ before (updateTrace (Engine.create {}))
        (fun x => ∃ ts, x = Ev.updatePairs ts)
        (fun x => ∃ ts, x = Ev.removeOldPairs ts) :=
  pairs_merge_then_evict_same_timestamp (Engine.create {})
